import Mathlib

/-!
Verification development for the SOCKS5 relay core of xfrpc
(src/proxy_tcp.c).  The C functions are shallowly embedded as pure
Lean functions: the libevent ring buffer becomes a list of bytes with
pops modelled by take/drop, bufferevent handles become natural-number
identifiers, and the external connector and multiplexed-stream-write
primitives become function parameters.  Bytes are `Fin 256`, matching
`uint8_t`.  The `len` parameters of the C functions are `int` values
that callers always derive from buffer lengths, so they are embedded
as `Nat`.
-/

namespace XfrpcProxy

/-- Bytes of the wire protocol, matching the C `uint8_t`. -/
abbrev Byte := Fin 256

/-- Embedding of `struct ring_buffer`: the FIFO of staged inbound tunnel
bytes, front of the queue at the head of the list.
`rx_ring_buffer_pop(rb, dst, n)` is modelled by `take n` (the bytes
delivered to `dst`) together with `drop n` (the remaining buffer). -/
structure ring_buffer where
  data : List Byte
deriving DecidableEq

/-- Embedding of `struct socks5_addr` as filled in by `parse_socks5_addr`
(proxy_tcp.c lines 88-130).  The fixed C arrays `addr[...]` and the
2-byte `port` field are modelled as the byte lists actually copied into
them by `memcpy`; the port bytes are kept in network order exactly as
they sit on the wire. -/
structure socks5_addr where
  type : Byte
  addr : List Byte
  port : List Byte
deriving DecidableEq

/-- Result of `parse_socks5_addr`: the C `int` return value (1 success,
0 failure) as a `Bool`, the `*offset` out-parameter, the `*addr`
out-parameter, and the ring buffer as left after the pops performed. -/
structure ParseOut where
  ok : Bool
  offset : Nat
  addr : socks5_addr
  rb : ring_buffer
deriving DecidableEq

/-- Embedding of `parse_socks5_addr` (proxy_tcp.c lines 81-131).
The function pops 1 tag byte, then switches on it in the source order
0x01, 0x04, 0x03, default.  Length checks compare the caller-supplied
`len` before the corresponding pop; on a failed check the function
returns 0 having popped only the bytes already pulled.  On failure the
output address holds only the tag (`memset` zeroed the rest); `*offset`
keeps its initial value 1. -/
def parse_socks5_addr (rb : ring_buffer) (len : Nat) : ParseOut :=
  let t : Byte := rb.data.headD 0
  let rb1 : List Byte := rb.data.drop 1
  if t = (1 : Byte) then
    -- IPv4: requires len >= 7, pops 6 more bytes into buf+1
    if len < 7 then ⟨false, 1, ⟨t, [], []⟩, ⟨rb1⟩⟩
    else
      let body := rb1.take 6
      ⟨true, 7, ⟨t, body.take 4, (body.drop 4).take 2⟩, ⟨rb1.drop 6⟩⟩
  else if t = (4 : Byte) then
    -- IPv6: requires len >= 19, pops 18 more bytes into buf+1
    if len < 19 then ⟨false, 1, ⟨t, [], []⟩, ⟨rb1⟩⟩
    else
      let body := rb1.take 18
      ⟨true, 19, ⟨t, body.take 16, (body.drop 16).take 2⟩, ⟨rb1.drop 18⟩⟩
  else if t = (3 : Byte) then
    -- Domain: requires len >= 2, pops the length byte, then requires
    -- len >= domain_len + 4 before popping domain_len + 2 more bytes
    if len < 2 then ⟨false, 1, ⟨t, [], []⟩, ⟨rb1⟩⟩
    else
      let L : Nat := (rb1.headD 0).val
      let rb2 := rb1.drop 1
      if len < L + 4 then ⟨false, 1, ⟨t, [], []⟩, ⟨rb2⟩⟩
      else
        let body := rb2.take (L + 2)
        ⟨true, L + 4, ⟨t, body.take L, (body.drop L).take 2⟩, ⟨rb2.drop (L + 2)⟩⟩
  else ⟨false, 1, ⟨t, [], []⟩, ⟨rb1⟩⟩

/-- Size of the scratch array declared in `parse_socks5_addr`:
`uint8_t buf[256]` at proxy_tcp.c line 89. -/
def parse_scratch_size : Nat := 256

/-- Highest index of the scratch array `buf` written by the pops of
`parse_socks5_addr` on the given input, read off the source:
`pop(rb, buf, 1)` writes index 0; IPv4 `pop(rb, buf+1, 6)` writes
indices 1-6; IPv6 `pop(rb, buf+1, 18)` writes 1-18; domain
`pop(rb, buf+1, 1)` writes 1 and `pop(rb, buf+2, domain_len+2)`
writes 2 through `domain_len + 3`. -/
def parse_scratch_high (rb : ring_buffer) (len : Nat) : Nat :=
  let t : Byte := rb.data.headD 0
  if t = (1 : Byte) then
    if len < 7 then 0 else 6
  else if t = (4 : Byte) then
    if len < 19 then 0 else 18
  else if t = (3 : Byte) then
    if len < 2 then 0
    else
      let L : Nat := ((rb.data.drop 1).headD 0).val
      if len < L + 4 then 1 else L + 3
  else 0

/-- Embedding of `is_socks5` (proxy_tcp.c lines 54-65). -/
def is_socks5 (buf : List Byte) (len : Nat) : Bool :=
  if len < 3 then false
  else if buf.getD 0 0 ≠ (5 : Byte) then false
  else if buf.getD 1 0 ≠ (1 : Byte) then false
  else if buf.getD 2 0 ≠ (0 : Byte) then false
  else true

/-- SOCKS5 protocol states of `struct proxy_client`, as used by
`handle_socks5` and `handle_ss5`. -/
inductive SocksState where
  | SOCKS5_INIT
  | SOCKS5_HANDSHAKE
  | SOCKS5_CONNECT
  | SOCKS5_ESTABLISHED
deriving DecidableEq

/-- Embedding of the fields of `struct proxy_client` that
`handle_socks5` reads or writes.  `local_proxy_bev` is the ownership
handle to the backend bufferevent, modelled as an optional identifier;
the borrowed `ctl_bev` and the event base are external and the writes
through them are recorded in `HandleOut` instead. -/
structure proxy_client where
  state : SocksState
  remote_addr : socks5_addr
  local_proxy_bev : Option Nat
  stream_id : Nat
deriving DecidableEq

/-- Embedding of `socks5_proxy_connect` (proxy_tcp.c lines 146-213):
it switches on the address type, rejecting any tag other than
0x01/0x03/0x04, and otherwise initiates the asynchronous connect.
Bufferevent creation and connect initiation are external (libevent),
so their combined outcome is the `backend` parameter: `some bev` when
initiation succeeds, `none` when it fails (in which case the partially
constructed bufferevent is freed inside this function). -/
def socks5_proxy_connect (backend : socks5_addr → Option Nat)
    (addr : socks5_addr) : Option Nat :=
  if addr.type = (1 : Byte) ∨ addr.type = (3 : Byte) ∨ addr.type = (4 : Byte) then
    backend addr
  else none

/-- Observable outcome of one `handle_socks5` call: the returned
consumed count, the client and ring buffer afterwards, the byte blocks
written to the tunnel via `tmux_stream_write`, the bytes forwarded to
the backend via `tx_ring_buffer_write`, and the bufferevent handles
passed to `bufferevent_free`. -/
structure HandleOut where
  ret : Nat
  client : proxy_client
  rb : ring_buffer
  replies : List (List Byte)
  forwarded : List Byte
  freed : List Nat
deriving DecidableEq

/-- Embedding of `handle_socks5` (proxy_tcp.c lines 280-342).
Branches in source order: SOCKS5_CONNECT forwards all `len` bytes;
SOCKS5_INIT with `len >= 3` pops and checks the greeting, replying
`05 00 00` on success; SOCKS5_HANDSHAKE with `len >= 10` pops the
3-byte request header, parses the address (note: passing the original
`len`, not `len - 3`, exactly as the source does), stores the parse
output in `client->remote_addr`, and assigns the connector result to
`client->local_proxy_bev`; every other combination logs an invalid
state, frees `local_proxy_bev` if present (without nulling it), and
returns 0.  The HANDSHAKE success path returns `len` and does not
change `client->state`. -/
def handle_socks5 (backend : socks5_addr → Option Nat)
    (client : proxy_client) (rb : ring_buffer) (len : Nat) : HandleOut :=
  if client.state = SocksState.SOCKS5_CONNECT then
    ⟨len, client, ⟨rb.data.drop len⟩, [], rb.data.take len, []⟩
  else if client.state = SocksState.SOCKS5_INIT ∧ 3 ≤ len then
    let buf := rb.data.take 3
    let rb1 : ring_buffer := ⟨rb.data.drop 3⟩
    if buf.getD 0 0 ≠ (5 : Byte) ∨ buf.getD 1 0 ≠ (1 : Byte) ∨ buf.getD 2 0 ≠ (0 : Byte) then
      ⟨0, client, rb1, [], [], []⟩
    else
      ⟨3, { client with state := SocksState.SOCKS5_HANDSHAKE }, rb1,
        [[5, 0, 0]], [], []⟩
  else if client.state = SocksState.SOCKS5_HANDSHAKE ∧ 10 ≤ len then
    let buf := rb.data.take 3
    let rb1 : ring_buffer := ⟨rb.data.drop 3⟩
    if ¬ is_socks5 buf 3 then
      ⟨0, client, rb1, [], [], []⟩
    else
      let p := parse_socks5_addr rb1 len
      if ¬ p.ok then
        ⟨0, { client with remote_addr := p.addr }, p.rb, [], [], []⟩
      else
        match socks5_proxy_connect backend p.addr with
        | none =>
            ⟨0, { client with remote_addr := p.addr, local_proxy_bev := none },
              p.rb, [], [], []⟩
        | some bev =>
            ⟨len, { client with remote_addr := p.addr, local_proxy_bev := some bev },
              p.rb, [], [], []⟩
  else
    match client.local_proxy_bev with
    | some b => ⟨0, client, rb, [], [], [b]⟩
    | none => ⟨0, client, rb, [], [], []⟩

/-- Observable outcome of one `tcp_proxy_c2s_cb` invocation: the bytes
left in the source bufferevent's input buffer, the bytes moved directly
to the control connection's output (non-multiplexed path), the number
of bytes offered to and accepted by `tmux_stream_write` (multiplexed
path), and whether `bufferevent_disable(bev, EV_READ)` was called. -/
structure C2SOut where
  src : List Byte
  direct : List Byte
  offered : Nat
  accepted : Nat
  readDisabled : Bool
deriving DecidableEq

/-- Embedding of `tcp_proxy_c2s_cb` (proxy_tcp.c lines 364-407).
`tcp_mux` is the process-wide `c_conf->tcp_mux` flag; `ctl_bev` models
`client->ctl_bev` (the invalid-client guard returns with no effect);
`tmux_stream_write` is the external multiplexed-write primitive, giving
the number of bytes it accepts of those offered.  In multiplexed mode
the whole input is read out of the source buffer and offered, and a
partial acceptance disables reading on the source bufferevent.
The scratch allocation and the complete `bufferevent_read` are assumed
to succeed (their failure paths return with no effect and are external
resource failures). -/
def tcp_proxy_c2s_cb (tcp_mux : Bool) (tmux_stream_write : Nat → Nat)
    (ctl_bev : Option Nat) (src : List Byte) : C2SOut :=
  match ctl_bev with
  | none => ⟨src, [], 0, 0, false⟩
  | some _ =>
    if src.length = 0 then ⟨src, [], 0, 0, false⟩
    else if ¬ tcp_mux then ⟨[], src, 0, 0, false⟩
    else
      let len := src.length
      let written := tmux_stream_write len
      ⟨[], [], len, written, decide (written < len)⟩

/-- Events delivered to one multiplexed stream's client-to-server path
by the reactor: arrival of readable bytes on the backend bufferevent,
or the external drain notification that re-enables reading. -/
inductive MuxEv where
  | bytes (bs : List Byte)
  | reenable
deriving DecidableEq

/-- Per-stream reactor state for the client-to-server path: whether
reading on the source bufferevent is enabled, and the total number of
bytes offered to the shared tunnel so far. -/
structure MuxTrace where
  readEnabled : Bool
  offeredTotal : Nat
deriving DecidableEq

/-- One reactor step for a multiplexed stream.  The reactor delivers a
read event (which runs the embedded `tcp_proxy_c2s_cb`) only while
reading is enabled — that is libevent's contract for a bufferevent
whose `EV_READ` is disabled.  A `reenable` event models the external
drain notification turning reading back on. -/
def mux_step (tmux_stream_write : Nat → Nat) (ctl_bev : Option Nat)
    (s : MuxTrace) (e : MuxEv) : MuxTrace :=
  match e with
  | .reenable => ⟨true, s.offeredTotal⟩
  | .bytes bs =>
      if s.readEnabled then
        let r := tcp_proxy_c2s_cb true tmux_stream_write ctl_bev bs
        ⟨s.readEnabled && !r.readDisabled, s.offeredTotal + r.offered⟩
      else s

/-- Runs a sequence of reactor events for one multiplexed stream. -/
def mux_run (tmux_stream_write : Nat → Nat) (ctl_bev : Option Nat) :
    MuxTrace → List MuxEv → MuxTrace
  | s, [] => s
  | s, e :: tl =>
      mux_run tmux_stream_write ctl_bev (mux_step tmux_stream_write ctl_bev s e) tl

/-- Converts a natural number to a byte the way C stores it into a
`uint8_t`, by reduction modulo 256. -/
def byteOfNat (n : Nat) : Byte := ⟨n % 256, Nat.mod_lt _ (by norm_num)⟩

/-- Wellformedness of a `socks5_addr` value with respect to the wire
format of section 6 of the design: the tag is one of 0x01/0x03/0x04,
the address bytes have the length the tag dictates (4, at most 255, or
16), and the port is exactly 2 bytes (network order). -/
def socks5_addr.WF (a : socks5_addr) : Prop :=
  a.port.length = 2 ∧
  ((a.type = (1 : Byte) ∧ a.addr.length = 4) ∨
   (a.type = (3 : Byte) ∧ a.addr.length ≤ 255) ∨
   (a.type = (4 : Byte) ∧ a.addr.length = 16))

/-- Re-encoding of a parsed `socks5_addr` with the wire semantics the
decoder inverts: the type tag, then for domains the 1-byte length,
then the address bytes, then the 2 port bytes in network order. -/
def encode_socks5_addr (a : socks5_addr) : List Byte :=
  if a.type = (3 : Byte) then
    a.type :: byteOfNat a.addr.length :: (a.addr ++ a.port)
  else
    a.type :: (a.addr ++ a.port)

/-- Concrete maximum-length domain request: tag 0x03, length byte 255,
255 domain bytes and a 2-byte port — 259 bytes in total, the worst case
of the wire format. -/
def c1_input : ring_buffer :=
  ⟨3 :: 255 :: (List.replicate 255 (7 : Byte) ++ [0, 80])⟩

/-- The decoder on an IPv4 body: tag 0x01 followed by 4 address bytes
and 2 port bytes consumes 7 bytes and returns them unchanged. -/
theorem parse_ipv4_shape (u v rest : List Byte) (len : Nat)
    (hu : u.length = 4) (hv : v.length = 2) (hlen : 7 ≤ len) :
    parse_socks5_addr ⟨(1 : Byte) :: ((u ++ v) ++ rest)⟩ len =
      ⟨true, 7, ⟨1, u, v⟩, ⟨rest⟩⟩ := by
  have h6 : (u ++ v).length = 6 := by simp [hu, hv]
  unfold parse_socks5_addr
  simp only [List.headD_cons, List.drop_succ_cons, List.drop_zero]
  rw [if_pos trivial, if_neg (by omega)]
  rw [List.take_left' h6, List.drop_left' h6]
  rw [List.take_left' hu, List.drop_left' hu]
  rw [← hv, List.take_length]

/-- The decoder on an IPv6 body: tag 0x04 followed by 16 address bytes
and 2 port bytes consumes 19 bytes and returns them unchanged. -/
theorem parse_ipv6_shape (u v rest : List Byte) (len : Nat)
    (hu : u.length = 16) (hv : v.length = 2) (hlen : 19 ≤ len) :
    parse_socks5_addr ⟨(4 : Byte) :: ((u ++ v) ++ rest)⟩ len =
      ⟨true, 19, ⟨4, u, v⟩, ⟨rest⟩⟩ := by
  have h18 : (u ++ v).length = 18 := by simp [hu, hv]
  unfold parse_socks5_addr
  simp only [List.headD_cons, List.drop_succ_cons, List.drop_zero]
  rw [if_neg (by decide), if_pos trivial, if_neg (by omega)]
  rw [List.take_left' h18, List.drop_left' h18]
  rw [List.take_left' hu, List.drop_left' hu]
  rw [← hv, List.take_length]

/-- The decoder on a domain body: tag 0x03, a length byte agreeing with
the domain length, the domain bytes and 2 port bytes consumes
`length + 4` bytes and returns them unchanged. -/
theorem parse_domain_shape (b : Byte) (u v rest : List Byte) (len : Nat)
    (hb : b.val = u.length) (hv : v.length = 2) (hlen : u.length + 4 ≤ len) :
    parse_socks5_addr ⟨(3 : Byte) :: b :: ((u ++ v) ++ rest)⟩ len =
      ⟨true, u.length + 4, ⟨3, u, v⟩, ⟨rest⟩⟩ := by
  have hL : (u ++ v).length = u.length + 2 := by simp [hv]
  unfold parse_socks5_addr
  simp only [List.headD_cons, List.drop_succ_cons, List.drop_zero]
  rw [if_neg (by decide), if_neg (by decide), if_pos trivial,
    if_neg (by omega), hb, if_neg (by omega)]
  rw [List.take_left' hL, List.drop_left' hL]
  rw [List.take_left, List.drop_left]
  rw [← hv, List.take_length]

/-- Decoding a wellformed encoded address followed by any suffix
succeeds, reports exactly the encoding's length as consumed, recovers
the address verbatim, and leaves exactly the suffix in the buffer. -/
theorem parse_encode_eq (a : socks5_addr) (rest : List Byte) (len : Nat)
    (hWF : a.WF) (hlen : (encode_socks5_addr a).length ≤ len) :
    parse_socks5_addr ⟨encode_socks5_addr a ++ rest⟩ len =
      ⟨true, (encode_socks5_addr a).length, a, ⟨rest⟩⟩ := by
  obtain ⟨hp, hty⟩ := hWF
  rcases hty with ⟨ht, ha⟩ | ⟨ht, ha⟩ | ⟨ht, ha⟩
  · have henc : encode_socks5_addr a = a.type :: (a.addr ++ a.port) := by
      rw [encode_socks5_addr, if_neg (by rw [ht]; decide)]
    have hlen7 : (encode_socks5_addr a).length = 7 := by
      simp [henc, ha, hp]
    rw [hlen7] at hlen
    have hA : (⟨1, a.addr, a.port⟩ : socks5_addr) = a := by rw [← ht]
    rw [hlen7, henc, List.cons_append, ht, ← hA]
    exact parse_ipv4_shape a.addr a.port rest len ha hp hlen
  · have henc : encode_socks5_addr a =
        a.type :: byteOfNat a.addr.length :: (a.addr ++ a.port) := by
      rw [encode_socks5_addr, if_pos ht]
    have hlenD : (encode_socks5_addr a).length = a.addr.length + 4 := by
      simp [henc, hp]
    rw [hlenD] at hlen
    have hb : (byteOfNat a.addr.length).val = a.addr.length := by
      simp [byteOfNat]; omega
    have hA : (⟨3, a.addr, a.port⟩ : socks5_addr) = a := by rw [← ht]
    rw [hlenD, henc, List.cons_append, List.cons_append, ht, ← hA]
    exact parse_domain_shape (byteOfNat a.addr.length) a.addr a.port rest len hb hp hlen
  · have henc : encode_socks5_addr a = a.type :: (a.addr ++ a.port) := by
      rw [encode_socks5_addr, if_neg (by rw [ht]; decide)]
    have hlen19 : (encode_socks5_addr a).length = 19 := by
      simp [henc, ha, hp]
    rw [hlen19] at hlen
    have hA : (⟨4, a.addr, a.port⟩ : socks5_addr) = a := by rw [← ht]
    rw [hlen19, henc, List.cons_append, ht, ← hA]
    exact parse_ipv6_shape a.addr a.port rest len ha hp hlen

/-- Whatever `parse_socks5_addr` does, the ring buffer it leaves behind
is the input minus an initial segment of at least one byte. -/
theorem parse_rb_drop (rb : ring_buffer) (len : Nat) :
    ∃ k, 1 ≤ k ∧ (parse_socks5_addr rb len).rb.data = rb.data.drop k := by
  by_cases h1 : rb.data.headD 0 = (1 : Byte)
  · by_cases hl : len < 7
    · refine ⟨1, by omega, ?_⟩
      simp only [parse_socks5_addr, h1]
      rw [if_pos trivial, if_pos hl]
    · refine ⟨7, by omega, ?_⟩
      simp only [parse_socks5_addr, h1]
      rw [if_pos trivial, if_neg hl]
      simp [List.drop_drop]
  · by_cases h4 : rb.data.headD 0 = (4 : Byte)
    · by_cases hl : len < 19
      · refine ⟨1, by omega, ?_⟩
        simp only [parse_socks5_addr, h4]
        rw [if_neg (by decide), if_pos trivial, if_pos hl]
      · refine ⟨19, by omega, ?_⟩
        simp only [parse_socks5_addr, h4]
        rw [if_neg (by decide), if_pos trivial, if_neg hl]
        simp [List.drop_drop]
    · by_cases h3 : rb.data.headD 0 = (3 : Byte)
      · by_cases hl : len < 2
        · refine ⟨1, by omega, ?_⟩
          simp only [parse_socks5_addr, h3]
          rw [if_neg (by decide), if_neg (by decide), if_pos trivial, if_pos hl]
        · by_cases hd : len < ((rb.data.drop 1).headD 0).val + 4
          · refine ⟨2, by omega, ?_⟩
            simp only [parse_socks5_addr, h3]
            rw [if_neg (by decide), if_neg (by decide), if_pos trivial, if_neg hl,
              if_pos hd]
            simp [List.drop_drop]
          · refine ⟨((rb.data.drop 1).headD 0).val + 4, by omega, ?_⟩
            simp only [parse_socks5_addr, h3]
            rw [if_neg (by decide), if_neg (by decide), if_pos trivial, if_neg hl,
              if_neg hd]
            simp [List.drop_drop]
            congr 1
            omega
      · refine ⟨1, by omega, ?_⟩
        simp only [parse_socks5_addr]
        rw [if_neg h1, if_neg h4, if_neg h3]

/-- Claim C1 (code bug): at the maximum domain length 255 the decoder
succeeds instead of rejecting, and its pops write the scratch array up
to index 258 — tag at 0, length byte at 1, domain and port at 2..258 —
while the scratch declared in the source (`uint8_t buf[256]`) holds
only `parse_scratch_size = 256` bytes.  A length value whose copy
exceeds the actual scratch capacity is therefore not rejected as a
decode failure: the write overflows the buffer, which would be safe
only at the 259-byte worst-case size the claim requires. -/
theorem claim_C1_scratch_overflow :
    (parse_socks5_addr c1_input 259).ok = true ∧
    parse_scratch_high c1_input 259 = 258 ∧
    parse_scratch_size = 256 ∧
    parse_scratch_size ≤ parse_scratch_high c1_input 259 :=
  ⟨rfl, rfl, rfl, by decide⟩

/-- Claim C4: for every tag byte other than 0x01, 0x03, 0x04, and for
every failed length check, `parse_socks5_addr` fails without pulling
from the ring buffer any bytes beyond those already validated to
exist: exactly the 1 tag byte for an unknown tag or a failed
fixed-size check, and exactly the tag plus length byte for a failed
domain length check. -/
theorem claim_C4_failure_consumption (rb : ring_buffer) (len : Nat) :
    (¬ (rb.data.headD 0 = (1 : Byte) ∨ rb.data.headD 0 = (3 : Byte) ∨
          rb.data.headD 0 = (4 : Byte)) →
      (parse_socks5_addr rb len).ok = false ∧
      (parse_socks5_addr rb len).rb.data = rb.data.drop 1) ∧
    (rb.data.headD 0 = (1 : Byte) → len < 7 →
      (parse_socks5_addr rb len).ok = false ∧
      (parse_socks5_addr rb len).rb.data = rb.data.drop 1) ∧
    (rb.data.headD 0 = (4 : Byte) → len < 19 →
      (parse_socks5_addr rb len).ok = false ∧
      (parse_socks5_addr rb len).rb.data = rb.data.drop 1) ∧
    (rb.data.headD 0 = (3 : Byte) → len < 2 →
      (parse_socks5_addr rb len).ok = false ∧
      (parse_socks5_addr rb len).rb.data = rb.data.drop 1) ∧
    (rb.data.headD 0 = (3 : Byte) → 2 ≤ len →
      len < ((rb.data.drop 1).headD 0).val + 4 →
      (parse_socks5_addr rb len).ok = false ∧
      (parse_socks5_addr rb len).rb.data = rb.data.drop 2) := by
  refine ⟨?_, ?_, ?_, ?_, ?_⟩
  · intro h
    push_neg at h
    obtain ⟨n1, n3, n4⟩ := h
    simp only [parse_socks5_addr]
    rw [if_neg n1, if_neg n4, if_neg n3]
    exact ⟨rfl, rfl⟩
  · intro h1 hl
    simp only [parse_socks5_addr, h1]
    rw [if_pos trivial, if_pos hl]
    exact ⟨rfl, rfl⟩
  · intro h4 hl
    simp only [parse_socks5_addr, h4]
    rw [if_neg (by decide), if_pos trivial, if_pos hl]
    exact ⟨rfl, rfl⟩
  · intro h3 hl
    simp only [parse_socks5_addr, h3]
    rw [if_neg (by decide), if_neg (by decide), if_pos trivial, if_pos hl]
    exact ⟨rfl, rfl⟩
  · intro h3 hl2 hd
    simp only [parse_socks5_addr, h3]
    rw [if_neg (by decide), if_neg (by decide), if_pos trivial,
      if_neg (by omega), if_pos hd]
    exact ⟨rfl, by simp [List.drop_drop]⟩

/-- Witness for C4: the unknown tag 0x09 is rejected with only the tag
byte consumed. -/
theorem claim_C4_failure_consumption_witness :
    (parse_socks5_addr ⟨[9, 1, 2]⟩ 3).ok = false ∧
    (parse_socks5_addr ⟨[9, 1, 2]⟩ 3).rb.data = [1, 2] :=
  (claim_C4_failure_consumption ⟨[9, 1, 2]⟩ 3).1 (by decide)

/-- Wellformed IPv4 test address 93.184.216.34:80 (port bytes 0x00
0x50 in network order). -/
def c9_addr : socks5_addr := ⟨1, [93, 184, 216, 34], [0, 80]⟩

/-- Claim C9: for every valid SocksAddress wire encoding (IPv4 tag
0x01, domain tag 0x03 with length at most 255, IPv6 tag 0x04),
decoding with `parse_socks5_addr` succeeds consuming exactly the
encoding, and re-encoding the resulting structure (type tag, address
bytes, 2-byte port in network order) yields the original bytes: the
round trip is lossless on type, address bytes, and port. -/
theorem claim_C9_roundtrip (a : socks5_addr) (rest : List Byte) (hWF : a.WF) :
    (parse_socks5_addr ⟨encode_socks5_addr a ++ rest⟩
        (encode_socks5_addr a ++ rest).length).ok = true ∧
    (parse_socks5_addr ⟨encode_socks5_addr a ++ rest⟩
        (encode_socks5_addr a ++ rest).length).offset =
      (encode_socks5_addr a).length ∧
    (parse_socks5_addr ⟨encode_socks5_addr a ++ rest⟩
        (encode_socks5_addr a ++ rest).length).addr = a ∧
    (parse_socks5_addr ⟨encode_socks5_addr a ++ rest⟩
        (encode_socks5_addr a ++ rest).length).rb.data = rest ∧
    encode_socks5_addr
        (parse_socks5_addr ⟨encode_socks5_addr a ++ rest⟩
          (encode_socks5_addr a ++ rest).length).addr =
      encode_socks5_addr a := by
  have h := parse_encode_eq a rest (encode_socks5_addr a ++ rest).length hWF
    (by simp only [List.length_append]; omega)
  rw [h]
  exact ⟨rfl, rfl, rfl, rfl, rfl⟩

/-- Witness for C9 at the IPv4 address 93.184.216.34:80. -/
theorem claim_C9_roundtrip_witness :
    socks5_addr.WF c9_addr ∧
    (parse_socks5_addr ⟨encode_socks5_addr c9_addr ++ []⟩
        (encode_socks5_addr c9_addr ++ []).length).addr = c9_addr ∧
    encode_socks5_addr
        (parse_socks5_addr ⟨encode_socks5_addr c9_addr ++ []⟩
          (encode_socks5_addr c9_addr ++ []).length).addr =
      encode_socks5_addr c9_addr :=
  have hWF : socks5_addr.WF c9_addr := by unfold socks5_addr.WF c9_addr; decide
  ⟨hWF, (claim_C9_roundtrip c9_addr [] hWF).2.2.1,
    (claim_C9_roundtrip c9_addr [] hWF).2.2.2.2⟩

/-- Client stuck in HANDSHAKE while already owning backend handle 7 —
reachable because the HANDSHAKE success path of `handle_socks5` stores
the handle without advancing the state. -/
def c3_client : proxy_client :=
  ⟨SocksState.SOCKS5_HANDSHAKE, ⟨0, [], []⟩, some 7, 0⟩

/-- Claim C3 (code bug): the releasing path of `handle_socks5` (the
invalid-protocol-state branch) frees `local_proxy_bev` but does not
null it: after one release the client still holds the same handle, and
invoking the same releasing operation a second time on the resulting
client frees backend connection 7 again — a double free, contradicting
the required null-on-release idempotence. -/
theorem claim_C3_double_free :
    (handle_socks5 (fun _ => none) c3_client ⟨[]⟩ 0).freed = [7] ∧
    (handle_socks5 (fun _ => none) c3_client ⟨[]⟩ 0).client.local_proxy_bev = some 7 ∧
    (handle_socks5 (fun _ => none)
        (handle_socks5 (fun _ => none) c3_client ⟨[]⟩ 0).client ⟨[]⟩ 0).freed = [7] :=
  ⟨rfl, rfl, rfl⟩

/-- Claim C5: in the INIT state with at least 3 bytes available, given
exactly the byte sequence 05 01 00, `handle_socks5` writes the reply
05 00 00 back over the tunnel stream, transitions the client state to
HANDSHAKE, consumes the 3 greeting bytes, and reports 3 bytes
consumed. -/
theorem claim_C5_init_greeting (backend : socks5_addr → Option Nat)
    (client : proxy_client) (rb : ring_buffer) (len : Nat)
    (hstate : client.state = SocksState.SOCKS5_INIT)
    (hlen : 3 ≤ len)
    (hbytes : rb.data.take 3 = [5, 1, 0]) :
    handle_socks5 backend client rb len =
      ⟨3, { client with state := SocksState.SOCKS5_HANDSHAKE },
        ⟨rb.data.drop 3⟩, [[5, 0, 0]], [], []⟩ := by
  have hs1 : ¬ client.state = SocksState.SOCKS5_CONNECT := by
    rw [hstate]; decide
  simp only [handle_socks5]
  rw [if_neg hs1, if_pos ⟨hstate, hlen⟩, hbytes, if_neg (by decide)]

/-- Claim C6: in the INIT state with at least 3 bytes available, if the
3 bytes are not exactly 05 01 00, `handle_socks5` reports 0 (the
protocol-error return), yet the 3 greeting bytes are still removed
from the ring buffer, no reply is written, and the client — state
included — is left unchanged. -/
theorem claim_C6_bad_greeting (backend : socks5_addr → Option Nat)
    (client : proxy_client) (rb : ring_buffer) (len : Nat)
    (hstate : client.state = SocksState.SOCKS5_INIT)
    (hlen : 3 ≤ len) (hdata : 3 ≤ rb.data.length)
    (hbytes : rb.data.take 3 ≠ [5, 1, 0]) :
    handle_socks5 backend client rb len =
      ⟨0, client, ⟨rb.data.drop 3⟩, [], [], []⟩ ∧
    rb.data.length - (rb.data.drop 3).length = 3 := by
  have hs1 : ¬ client.state = SocksState.SOCKS5_CONNECT := by
    rw [hstate]; decide
  have hlen3 : (rb.data.take 3).length = 3 := by
    rw [List.length_take]; omega
  have hcond : (rb.data.take 3).getD 0 0 ≠ (5 : Byte) ∨
      (rb.data.take 3).getD 1 0 ≠ (1 : Byte) ∨
      (rb.data.take 3).getD 2 0 ≠ (0 : Byte) := by
    by_contra hc
    push_neg at hc
    obtain ⟨e0, e1, e2⟩ := hc
    apply hbytes
    obtain ⟨x, y, z, hxyz⟩ := List.length_eq_three.mp hlen3
    rw [hxyz] at e0 e1 e2 ⊢
    simp only [List.getD_cons_zero, List.getD_cons_succ] at e0 e1 e2
    rw [e0, e1, e2]
  constructor
  · simp only [handle_socks5]
    rw [if_neg hs1, if_pos ⟨hstate, hlen⟩, if_pos hcond]
  · rw [List.length_drop]; omega

/-- Witness for C5: greeting 05 01 00 with one extra byte pending. -/
theorem claim_C5_init_greeting_witness :
    handle_socks5 (fun _ => none)
        ⟨SocksState.SOCKS5_INIT, ⟨0, [], []⟩, none, 0⟩ ⟨[5, 1, 0, 9]⟩ 4 =
      ⟨3, ⟨SocksState.SOCKS5_HANDSHAKE, ⟨0, [], []⟩, none, 0⟩, ⟨[9]⟩,
        [[5, 0, 0]], [], []⟩ :=
  claim_C5_init_greeting _ _ _ _ rfl (by decide) (by decide)

/-- Witness for C6: a greeting with the wrong version byte. -/
theorem claim_C6_bad_greeting_witness :
    handle_socks5 (fun _ => none)
        ⟨SocksState.SOCKS5_INIT, ⟨0, [], []⟩, none, 0⟩ ⟨[4, 1, 0]⟩ 3 =
      ⟨0, ⟨SocksState.SOCKS5_INIT, ⟨0, [], []⟩, none, 0⟩, ⟨[]⟩, [], [], []⟩ ∧
    ([(4 : Byte), 1, 0].length) - (([(4 : Byte), 1, 0].drop 3).length) = 3 :=
  claim_C6_bad_greeting _ _ _ _ rfl (by decide) (by decide) (by decide)

/-- Claim C7, counterexample: a client in HANDSHAKE with fewer than 10
bytes available that already owns a backend handle (reachable, since
the HANDSHAKE success path leaves the state at HANDSHAKE while storing
the handle) has that backend freed by the fall-through branch — the
handler does tear something down on an insufficient-data call. -/
theorem claim_C7_counterexample :
    (handle_socks5 (fun _ => none)
        ⟨SocksState.SOCKS5_HANDSHAKE, ⟨0, [], []⟩, some 7, 0⟩ ⟨[1]⟩ 1).ret = 0 ∧
    (handle_socks5 (fun _ => none)
        ⟨SocksState.SOCKS5_HANDSHAKE, ⟨0, [], []⟩, some 7, 0⟩ ⟨[1]⟩ 1).freed = [7] :=
  ⟨rfl, rfl⟩

/-- Claim C7 as amended: for every (state, length) combination that
matches no defined transition of `handle_socks5` — in particular INIT
with fewer than 3 bytes and HANDSHAKE with fewer than 10 — the handler
reports 0 bytes consumed, consumes nothing from the ring buffer,
writes no reply, forwards nothing, and leaves the client (state
included) unchanged; it does, however, free the backend handle when
one is present, so only for a client with no backend handle does it
tear nothing down, letting the caller wait for more bytes. -/
theorem claim_C7_amended (backend : socks5_addr → Option Nat)
    (client : proxy_client) (rb : ring_buffer) (len : Nat)
    (h1 : ¬ client.state = SocksState.SOCKS5_CONNECT)
    (h2 : ¬ (client.state = SocksState.SOCKS5_INIT ∧ 3 ≤ len))
    (h3 : ¬ (client.state = SocksState.SOCKS5_HANDSHAKE ∧ 10 ≤ len)) :
    handle_socks5 backend client rb len =
      ⟨0, client, rb, [], [], client.local_proxy_bev.toList⟩ := by
  simp only [handle_socks5]
  rw [if_neg h1, if_neg h2, if_neg h3]
  cases h : client.local_proxy_bev <;> rfl

/-- Witness for the amended C7: INIT with a single pending byte and no
backend handle — nothing consumed, nothing freed. -/
theorem claim_C7_amended_witness :
    handle_socks5 (fun _ => none)
        ⟨SocksState.SOCKS5_INIT, ⟨0, [], []⟩, none, 0⟩ ⟨[5]⟩ 1 =
      ⟨0, ⟨SocksState.SOCKS5_INIT, ⟨0, [], []⟩, none, 0⟩, ⟨[5]⟩, [], [], []⟩ :=
  claim_C7_amended _ _ _ _ (by decide) (by decide) (by decide)

/-- Valid HANDSHAKE-state connect request: triple 05 01 00 followed by
the IPv4 SocksAddress for 93.184.216.34:80 — 10 bytes. -/
def c2_request : ring_buffer := ⟨[5, 1, 0, 1, 93, 184, 216, 34, 0, 80]⟩

/-- Claim C2, counterexample: in HANDSHAKE with the valid 10-byte IPv4
connect request and a connector that succeeds, `handle_socks5` reports
10 bytes but leaves the client state at HANDSHAKE — it does not move
it to the CONNECT/ESTABLISHED state. -/
theorem claim_C2_counterexample :
    (handle_socks5 (fun _ => some 1)
        ⟨SocksState.SOCKS5_HANDSHAKE, ⟨0, [], []⟩, none, 0⟩ c2_request 10).ret = 10 ∧
    (handle_socks5 (fun _ => some 1)
        ⟨SocksState.SOCKS5_HANDSHAKE, ⟨0, [], []⟩, none, 0⟩ c2_request 10).client.state =
      SocksState.SOCKS5_HANDSHAKE ∧
    ¬ (handle_socks5 (fun _ => some 1)
        ⟨SocksState.SOCKS5_HANDSHAKE, ⟨0, [], []⟩, none, 0⟩ c2_request 10).client.state =
      SocksState.SOCKS5_CONNECT :=
  ⟨rfl, rfl, by decide⟩

/-- Claim C2 as amended: in the HANDSHAKE state, given the valid triple
05 01 00 followed by a decodable SocksAddress (at least 10 bytes in
total) and a connector whose initiation succeeds, `handle_socks5`
stores the decoded address and the backend handle on the client and
reports exactly 3 + consumed bytes (10 for an IPv4 address), where
consumed is the number of bytes the address decoder reports; the
client state stays at HANDSHAKE — the transition to
CONNECT/ESTABLISHED is deferred to the asynchronous connect-event
callback outside this function. -/
theorem claim_C2_amended (backend : socks5_addr → Option Nat)
    (client : proxy_client) (a : socks5_addr) (bev : Nat)
    (hstate : client.state = SocksState.SOCKS5_HANDSHAKE)
    (hWF : a.WF)
    (hlen : 10 ≤ 3 + (encode_socks5_addr a).length)
    (hconn : backend a = some bev) :
    handle_socks5 backend client ⟨[5, 1, 0] ++ encode_socks5_addr a⟩
        (3 + (encode_socks5_addr a).length) =
      ⟨3 + (encode_socks5_addr a).length,
        { client with remote_addr := a, local_proxy_bev := some bev },
        ⟨[]⟩, [], [], []⟩ := by
  have hs1 : ¬ client.state = SocksState.SOCKS5_CONNECT := by
    rw [hstate]; decide
  have hs2 : ¬ (client.state = SocksState.SOCKS5_INIT ∧
      3 ≤ 3 + (encode_socks5_addr a).length) := by
    rintro ⟨h, -⟩
    rw [hstate] at h
    exact absurd h (by decide)
  have hp := parse_encode_eq a [] (3 + (encode_socks5_addr a).length) hWF (by omega)
  rw [List.append_nil] at hp
  have hv : socks5_proxy_connect backend a = some bev := by
    unfold socks5_proxy_connect
    rw [if_pos (hWF.2.imp And.left (fun h => h.imp And.left And.left)), hconn]
  simp only [handle_socks5]
  rw [if_neg hs1, if_neg hs2, if_pos ⟨hstate, hlen⟩,
    show (([5, 1, 0] : List Byte) ++ encode_socks5_addr a).take 3 = [5, 1, 0] from
      List.take_left' rfl,
    show (([5, 1, 0] : List Byte) ++ encode_socks5_addr a).drop 3 = encode_socks5_addr a from
      List.drop_left' rfl,
    if_neg (by decide), hp, if_neg (by simp), hv]

/-- Wellformed IPv4 address 93.184.216.34:80 used to instantiate the
amended C2. -/
def c2_addr : socks5_addr := ⟨1, [93, 184, 216, 34], [0, 80]⟩

/-- Witness for the amended C2 at the IPv4 address 93.184.216.34:80:
10 bytes in, 10 reported, backend handle 5 stored, state left at
HANDSHAKE. -/
theorem claim_C2_amended_witness :
    handle_socks5 (fun _ => some 5)
        ⟨SocksState.SOCKS5_HANDSHAKE, ⟨0, [], []⟩, none, 0⟩
        ⟨[5, 1, 0] ++ encode_socks5_addr c2_addr⟩
        (3 + (encode_socks5_addr c2_addr).length) =
      ⟨3 + (encode_socks5_addr c2_addr).length,
        ⟨SocksState.SOCKS5_HANDSHAKE, c2_addr, some 5, 0⟩, ⟨[]⟩, [], [], []⟩ :=
  claim_C2_amended _ _ _ _ rfl (by unfold socks5_addr.WF c2_addr; decide)
    (by decide) rfl

/-- Claim C10: on every failure path of `handle_socks5` in the
HANDSHAKE state with at least 10 bytes available (invalid
version/command/reserved triple, address decode failure, or
connect-initiation failure), the handler returns 0 even though at
least 3 bytes — and on decode or connect failure more — have already
been irrevocably popped from the ring buffer, so the reported consumed
count understates the bytes actually removed from the stream. -/
theorem claim_C10_failure_understates (backend : socks5_addr → Option Nat)
    (client : proxy_client) (rb : ring_buffer) (len : Nat)
    (hstate : client.state = SocksState.SOCKS5_HANDSHAKE)
    (hlen : 10 ≤ len) (hdata : len ≤ rb.data.length)
    (hret : (handle_socks5 backend client rb len).ret = 0) :
    3 ≤ rb.data.length - (handle_socks5 backend client rb len).rb.data.length ∧
    (handle_socks5 backend client rb len).ret <
      rb.data.length - (handle_socks5 backend client rb len).rb.data.length := by
  have hs1 : ¬ client.state = SocksState.SOCKS5_CONNECT := by
    rw [hstate]; decide
  have hs2 : ¬ (client.state = SocksState.SOCKS5_INIT ∧ 3 ≤ len) := by
    rintro ⟨h, -⟩
    rw [hstate] at h
    exact absurd h (by decide)
  obtain ⟨k, hk1, hk2⟩ := parse_rb_drop ⟨rb.data.drop 3⟩ len
  by_cases hA : is_socks5 (rb.data.take 3) 3 = true
  · by_cases hB : (parse_socks5_addr ⟨rb.data.drop 3⟩ len).ok = true
    · cases hC : socks5_proxy_connect backend
          (parse_socks5_addr ⟨rb.data.drop 3⟩ len).addr with
      | none =>
        have hEq : handle_socks5 backend client rb len =
            ⟨0, { client with
                    remote_addr := (parse_socks5_addr ⟨rb.data.drop 3⟩ len).addr,
                    local_proxy_bev := none },
              (parse_socks5_addr ⟨rb.data.drop 3⟩ len).rb, [], [], []⟩ := by
          simp only [handle_socks5]
          rw [if_neg hs1, if_neg hs2, if_pos ⟨hstate, hlen⟩,
            if_neg (not_not_intro hA), if_neg (not_not_intro hB), hC]
        rw [hEq]
        simp only [hk2, List.length_drop]
        omega
      | some bev =>
        have hEq : handle_socks5 backend client rb len =
            ⟨len, { client with
                      remote_addr := (parse_socks5_addr ⟨rb.data.drop 3⟩ len).addr,
                      local_proxy_bev := some bev },
              (parse_socks5_addr ⟨rb.data.drop 3⟩ len).rb, [], [], []⟩ := by
          simp only [handle_socks5]
          rw [if_neg hs1, if_neg hs2, if_pos ⟨hstate, hlen⟩,
            if_neg (not_not_intro hA), if_neg (not_not_intro hB), hC]
        have hl0 : len = 0 := by rw [hEq] at hret; exact hret
        omega
    · have hEq : handle_socks5 backend client rb len =
          ⟨0, { client with
                  remote_addr := (parse_socks5_addr ⟨rb.data.drop 3⟩ len).addr },
            (parse_socks5_addr ⟨rb.data.drop 3⟩ len).rb, [], [], []⟩ := by
        simp only [handle_socks5]
        rw [if_neg hs1, if_neg hs2, if_pos ⟨hstate, hlen⟩,
          if_neg (not_not_intro hA), if_pos hB]
      rw [hEq]
      simp only [hk2, List.length_drop]
      omega
  · have hEq : handle_socks5 backend client rb len =
        ⟨0, client, ⟨rb.data.drop 3⟩, [], [], []⟩ := by
      simp only [handle_socks5]
      rw [if_neg hs1, if_neg hs2, if_pos ⟨hstate, hlen⟩, if_pos hA]
    rw [hEq]
    simp only [List.length_drop]
    omega

/-- Witness for C10: a HANDSHAKE request whose triple is invalid (04
instead of 05): 3 bytes popped, 0 reported. -/
theorem claim_C10_failure_understates_witness :
    3 ≤ ([(4 : Byte), 1, 0, 1, 93, 184, 216, 34, 0, 80].length) -
        (handle_socks5 (fun _ => some 1)
            ⟨SocksState.SOCKS5_HANDSHAKE, ⟨0, [], []⟩, none, 0⟩
            ⟨[4, 1, 0, 1, 93, 184, 216, 34, 0, 80]⟩ 10).rb.data.length ∧
    (handle_socks5 (fun _ => some 1)
        ⟨SocksState.SOCKS5_HANDSHAKE, ⟨0, [], []⟩, none, 0⟩
        ⟨[4, 1, 0, 1, 93, 184, 216, 34, 0, 80]⟩ 10).ret <
      ([(4 : Byte), 1, 0, 1, 93, 184, 216, 34, 0, 80].length) -
        (handle_socks5 (fun _ => some 1)
            ⟨SocksState.SOCKS5_HANDSHAKE, ⟨0, [], []⟩, none, 0⟩
            ⟨[4, 1, 0, 1, 93, 184, 216, 34, 0, 80]⟩ 10).rb.data.length :=
  claim_C10_failure_understates _ _ _ _ rfl (by decide) (by decide) rfl

/-- Claim C8: in multiplexed mode, whenever `tmux_stream_write` accepts
fewer bytes than `tcp_proxy_c2s_cb` offered, reading on the source
bufferevent is disabled in that same event; consequently, starting
from the read-disabled state, the reactor (which delivers read events
only while reading is enabled) lets no further event offer bytes to
the shared tunnel for this stream until an explicit re-enable event
occurs. -/
theorem claim_C8_backpressure (tmux_stream_write : Nat → Nat) (cb : Nat)
    (src : List Byte) (evs : List MuxEv) (n : Nat)
    (hsrc : src ≠ [])
    (hpacc : tmux_stream_write src.length < src.length)
    (hnore : ∀ e ∈ evs, e ≠ MuxEv.reenable) :
    (tcp_proxy_c2s_cb true tmux_stream_write (some cb) src).readDisabled = true ∧
    (tcp_proxy_c2s_cb true tmux_stream_write (some cb) src).offered = src.length ∧
    mux_step tmux_stream_write (some cb) ⟨true, n⟩ (MuxEv.bytes src) =
      ⟨false, n + src.length⟩ ∧
    mux_run tmux_stream_write (some cb) ⟨false, n + src.length⟩ evs =
      ⟨false, n + src.length⟩ := by
  have hlen : ¬ src.length = 0 := by
    intro h
    exact hsrc (List.length_eq_zero.mp h)
  have hcb : tcp_proxy_c2s_cb true tmux_stream_write (some cb) src =
      ⟨[], [], src.length, tmux_stream_write src.length, true⟩ := by
    simp only [tcp_proxy_c2s_cb]
    rw [if_neg hlen, if_neg (by simp)]
    simp [hpacc]
  refine ⟨by rw [hcb], by rw [hcb], ?_, ?_⟩
  · simp [mux_step, hcb]
  · induction evs with
    | nil => rfl
    | cons e tl ih =>
      have hstep : mux_step tmux_stream_write (some cb)
          ⟨false, n + src.length⟩ e = ⟨false, n + src.length⟩ := by
        cases e with
        | reenable => exact absurd rfl (hnore _ (List.mem_cons_self _ _))
        | bytes bs => rfl
      show mux_run tmux_stream_write (some cb)
          (mux_step tmux_stream_write (some cb) ⟨false, n + src.length⟩ e) tl =
        ⟨false, n + src.length⟩
      rw [hstep]
      exact ih (fun e' he' => hnore e' (List.mem_cons_of_mem _ he'))

/-- Witness for C8: three bytes offered, none accepted, two further
byte arrivals delivered while reading stays disabled. -/
theorem claim_C8_backpressure_witness :
    (tcp_proxy_c2s_cb true (fun _ => 0) (some 0) [1, 2, 3]).readDisabled = true ∧
    (tcp_proxy_c2s_cb true (fun _ => 0) (some 0) [1, 2, 3]).offered = 3 ∧
    mux_step (fun _ => 0) (some 0) ⟨true, 0⟩ (MuxEv.bytes [1, 2, 3]) = ⟨false, 3⟩ ∧
    mux_run (fun _ => 0) (some 0) ⟨false, 3⟩
        [MuxEv.bytes [4], MuxEv.bytes [5, 6]] = ⟨false, 3⟩ :=
  claim_C8_backpressure (fun _ => 0) 0 [1, 2, 3]
    [MuxEv.bytes [4], MuxEv.bytes [5, 6]] 0 (by decide) (by decide) (by decide)

end XfrpcProxy
